import Mathlib

/-!
# Verification of the Gemini function-calling orchestrator

Shallow embedding of the tool-calling chat orchestrator:

* `src/src/chat.ts` — `executeTool` (tool router with failure containment)
  and `handleChat` (conversation builder + bounded function-calling loop);
* `src/src/index.ts` — the `POST /api/chat` route's input validation;
* `src/tools.ts` — `executeCalculate` (the one pure tool executor).

Modelling conventions:

* The remote completion service is an oracle `svc : Nat → FetchOutcome`
  giving the outcome of the i-th `fetch` of a session.  `fetchThrow m`
  models a rejected `fetch` promise or a `res.json()` that throws
  (transport failure / non-JSON body); `response ok data` models an HTTP
  response with status flag `ok` and parsed JSON body `data`.
* Tool executors other than `executeCalculate` perform network I/O and are
  external collaborators; they are oracle fields of `ToolEnv`, each
  returning `Except String String` where `Except.error m` models a thrown
  exception with message `m`.  The `apiKey` argument only parametrises
  those outbound calls, so it is absorbed into the oracles.
* `handleChat` returns `Except String ChatResponse`; `Except.error m`
  means an uncaught exception with message `m` escapes to the caller
  (the loop body of `handleChat` has no `try`/`catch` around its `fetch`).
* JavaScript numbers are modelled as `Rat`; the verified claims never
  depend on float rounding.
-/

namespace Chat

/-- A JSON value as far as the modelled code inspects one.  Tool-call
arguments are passed through the orchestrator opaquely and the route
handler only tests truthiness and `typeof`, so array/object contents
are never examined by the modelled code paths. -/
inductive JVal where
  | str (s : String)
  | num (q : Rat)
  | bool (b : Bool)
  | null
  | arr
  | obj
deriving Repr, DecidableEq

/-- JavaScript truthiness of a `JVal` (`undefined` is handled by
`Option.none` at use sites). -/
def jsTruthy : JVal → Bool
  | JVal.str s => decide (s ≠ "")
  | JVal.num q => decide (q ≠ 0)
  | JVal.bool b => b
  | JVal.null => false
  | JVal.arr => true
  | JVal.obj => true

/-- `typeof v === "string"`. -/
def jsIsString : JVal → Bool
  | JVal.str _ => true
  | _ => false

/-- A `functionCall` segment payload: `{ name, args }`. -/
structure FunctionCall where
  name : String
  args : JVal
deriving Repr, DecidableEq

/-- A `functionResponse` segment payload.  In the source the executor's
string is nested as `{ name, response: { result } }`; the single-field
`response` wrapper is flattened into `result`. -/
structure FunctionResponse where
  name : String
  result : String
deriving Repr, DecidableEq

/-- One element of a `parts` array.  Absent fields are `none`.
`thoughtSignature` stands for the opaque provenance/continuity metadata
the remote service may attach to a part. -/
structure Part where
  text : Option String := none
  functionCall : Option FunctionCall := none
  functionResponse : Option FunctionResponse := none
  thoughtSignature : Option String := none
deriving Repr, DecidableEq

/-- One entry of the `contents` transcript: `{ role, parts }`. -/
structure Turn where
  role : String
  parts : List Part
deriving Repr, DecidableEq

/-- `candidate.content` of the wire response. -/
structure Content where
  parts : List Part
deriving Repr, DecidableEq

/-- One candidate of the wire response; `content` may be absent. -/
structure Candidate where
  content : Option Content
deriving Repr, DecidableEq

/-- Parsed JSON body of a completion-service response.  `errorMessage`
models `geminiData.error?.message`; `raw` models what
`JSON.stringify(geminiData)` would yield (used only in the error reply). -/
structure GeminiData where
  candidates : Option (List Candidate) := none
  errorMessage : Option String := none
  raw : String := ""
deriving Repr, DecidableEq

/-- Outcome of one `fetch` + `res.json()` round trip. -/
inductive FetchOutcome where
  | fetchThrow (msg : String)
  | response (ok : Bool) (data : GeminiData)
deriving Repr, DecidableEq

/-- `geminiData.candidates?.[0]?.content?.parts` as an optional list. -/
def candParts (d : GeminiData) : Option (List Part) :=
  ((d.candidates.bind List.head?).bind Candidate.content).map Content.parts

/-- Result type of a (possibly throwing) tool executor:
`Except.error m` models a thrown exception with message `m`. -/
abbrev ExecResult := Except String String

/-- Behaviour of the eight registered executors.  All but `calculate`
perform their own network I/O against third-party services, so each is an
oracle; `calculate`'s pure source is embedded separately as
`executeCalculate` below. -/
structure ToolEnv where
  weather : JVal → ExecResult
  exchange_rate : JVal → ExecResult
  translate : JVal → ExecResult
  summarize : JVal → ExecResult
  web_search : JVal → ExecResult
  fetch_url : JVal → ExecResult
  calculate : JVal → ExecResult
  datetime : JVal → ExecResult

/-- The names handled by `executeTool`'s `switch`. -/
def registeredToolNames : List String :=
  ["weather", "exchange_rate", "translate", "summarize",
   "web_search", "fetch_url", "calculate", "datetime"]

/-- Body of `executeTool`'s `try` block: the `switch` over the tool name
(a `switch` on string equality, written as the equivalent chain of
equality tests).  The `default` arm returns the unknown-tool string
without throwing. -/
def execTry (env : ToolEnv) (name : String) (args : JVal) : ExecResult :=
  if name = "weather" then env.weather args
  else if name = "exchange_rate" then env.exchange_rate args
  else if name = "translate" then env.translate args
  else if name = "summarize" then env.summarize args
  else if name = "web_search" then env.web_search args
  else if name = "fetch_url" then env.fetch_url args
  else if name = "calculate" then env.calculate args
  else if name = "datetime" then env.datetime args
  else Except.ok ("알 수 없는 도구: " ++ name)

/-- `executeTool` of `chat.ts`: dispatch plus the `catch` that converts
any thrown executor error into a descriptive string result. -/
def executeTool (env : ToolEnv) (name : String) (args : JVal) : String :=
  match execTry env name args with
  | Except.ok s => s
  | Except.error msg => "도구 실행 오류 (" ++ name ++ "): " ++ msg

/-- `ChatMessage.role` of `chat.ts`: `"user" | "assistant"`. -/
inductive Role where
  | user
  | assistant
deriving Repr, DecidableEq

/-- An entry of the caller-supplied history. -/
structure ChatMessage where
  role : Role
  text : String
deriving Repr, DecidableEq

/-- The value `handleChat` resolves with. -/
structure ChatResponse where
  reply : String
  tools_used : List String
deriving Repr, DecidableEq

/-- `GEMINI_MODEL` of `chat.ts` (only names the remote endpoint). -/
def GEMINI_MODEL : String := "gemini-3-pro-preview"

/-- `MAX_TOOL_CALLS` of `chat.ts`. -/
def MAX_TOOL_CALLS : Nat := 5

/-- The system prompt prepended to the first user message. -/
def systemPrompt : String :=
  "당신은 친절하고 유능한 AI 어시스턴트입니다. 한국어로 답변하세요. " ++
  "사용자의 질문에 따라 적절한 도구(함수)를 사용하여 실시간 정보를 제공하세요. " ++
  "도구를 사용할 필요 없는 일반 대화에는 도구를 호출하지 마세요."

/-- `msg.role === "assistant" ? "model" : "user"`. -/
def toGeminiRole (r : Role) : String :=
  match r with
  | Role.assistant => "model"
  | Role.user => "user"

/-- Construction of the initial `contents` array in `handleChat`: prior
history mapped 1:1, then the new user turn, with the system prompt
included exactly when the transcript is still empty. -/
def initialContents (message : String) (history : List ChatMessage) : List Turn :=
  let contents := history.map (fun m => Turn.mk (toGeminiRole m.role) [{ text := some m.text }])
  if contents.length = 0 then
    contents ++ [Turn.mk "user" [{ text := some (systemPrompt ++ "\n\n사용자 질문: " ++ message) }]]
  else
    contents ++ [Turn.mk "user" [{ text := some message }]]

/-- The two turns appended on a tool call: the raw model turn (the
response's `parts` array reused verbatim) and the user-role
`functionResponse` turn carrying the executor's string. -/
def toolTurns (fc : FunctionCall) (parts : List Part) (toolResult : String) : List Turn :=
  [Turn.mk "model" parts,
   Turn.mk "user" [{ functionResponse := some (FunctionResponse.mk fc.name toolResult) }]]

/-- Terminal reply when the completion call returned a non-success
status: `geminiData.error?.message || JSON.stringify(geminiData)`
(falling back on the serialisation when `message` is absent or falsy). -/
def serviceErrorReply (d : GeminiData) : String :=
  "Gemini API 오류가 발생했습니다: " ++
    (match d.errorMessage with
     | some m => if m = "" then d.raw else m
     | none => d.raw)

/-- Terminal reply when the response has no usable candidate parts. -/
def noResponseReply : String := "Gemini에서 응답을 받지 못했습니다."

/-- Terminal reply when the parts hold neither a function call nor text. -/
def unprocessableReply : String := "응답을 처리할 수 없습니다."

/-- Terminal reply when the call budget is exhausted. -/
def budgetExhaustedReply : String :=
  "도구 호출 횟수 제한에 도달했습니다. 질문을 다시 시도해주세요."

/-- `parts.find(p => p.text)` followed by reading `.text`: the first
part whose `text` field is truthy (present and non-empty). -/
def truthyText (p : Part) : Option String :=
  match p.text with
  | some t => if t = "" then none else some t
  | none => none

/-- The `for (let i = 0; i < MAX_TOOL_CALLS; i++)` loop of `handleChat`,
with `fuel` the remaining iterations and `i` the index of the next
completion call.  A `fetchThrow` propagates as `Except.error` because the
loop body has no `try`/`catch` around the `fetch`. -/
def chatLoop (env : ToolEnv) (svc : Nat → FetchOutcome) :
    Nat → Nat → List Turn → List String → Except String ChatResponse
  | 0, _, _, toolsUsed =>
      Except.ok (ChatResponse.mk budgetExhaustedReply toolsUsed)
  | fuel + 1, i, contents, toolsUsed =>
      match svc i with
      | FetchOutcome.fetchThrow msg => Except.error msg
      | FetchOutcome.response false d =>
          Except.ok (ChatResponse.mk (serviceErrorReply d) toolsUsed)
      | FetchOutcome.response true d =>
          match candParts d with
          | none => Except.ok (ChatResponse.mk noResponseReply toolsUsed)
          | some [] => Except.ok (ChatResponse.mk noResponseReply toolsUsed)
          | some (p :: rest) =>
              match List.findSome? Part.functionCall (p :: rest) with
              | some fc =>
                  chatLoop env svc fuel (i + 1)
                    (contents ++ toolTurns fc (p :: rest) (executeTool env fc.name fc.args))
                    (toolsUsed ++ [fc.name])
              | none =>
                  match List.findSome? truthyText (p :: rest) with
                  | some t => Except.ok (ChatResponse.mk t toolsUsed)
                  | none => Except.ok (ChatResponse.mk unprocessableReply toolsUsed)

/-- `handleChat` of `chat.ts`. -/
def handleChat (env : ToolEnv) (svc : Nat → FetchOutcome)
    (message : String) (history : List ChatMessage) : Except String ChatResponse :=
  chatLoop env svc MAX_TOOL_CALLS 0 (initialContents message history) []

/-- `chatLoop` instrumented to also return the final `contents`
transcript (ghost state used to reason about the transcript shape). -/
def chatLoopT (env : ToolEnv) (svc : Nat → FetchOutcome) :
    Nat → Nat → List Turn → List String → Except String ChatResponse × List Turn
  | 0, _, contents, toolsUsed =>
      (Except.ok (ChatResponse.mk budgetExhaustedReply toolsUsed), contents)
  | fuel + 1, i, contents, toolsUsed =>
      match svc i with
      | FetchOutcome.fetchThrow msg => (Except.error msg, contents)
      | FetchOutcome.response false d =>
          (Except.ok (ChatResponse.mk (serviceErrorReply d) toolsUsed), contents)
      | FetchOutcome.response true d =>
          match candParts d with
          | none => (Except.ok (ChatResponse.mk noResponseReply toolsUsed), contents)
          | some [] => (Except.ok (ChatResponse.mk noResponseReply toolsUsed), contents)
          | some (p :: rest) =>
              match List.findSome? Part.functionCall (p :: rest) with
              | some fc =>
                  chatLoopT env svc fuel (i + 1)
                    (contents ++ toolTurns fc (p :: rest) (executeTool env fc.name fc.args))
                    (toolsUsed ++ [fc.name])
              | none =>
                  match List.findSome? truthyText (p :: rest) with
                  | some t => (Except.ok (ChatResponse.mk t toolsUsed), contents)
                  | none => (Except.ok (ChatResponse.mk unprocessableReply toolsUsed), contents)

/-- `handleChat` with the final transcript exposed. -/
def handleChatT (env : ToolEnv) (svc : Nat → FetchOutcome)
    (message : String) (history : List ChatMessage) :
    Except String ChatResponse × List Turn :=
  chatLoopT env svc MAX_TOOL_CALLS 0 (initialContents message history) []

/-- The function-call request the loop would honour in the i-th
response, with the raw parts list it arrived in: defined exactly when the
response is a success whose candidate parts are non-empty and contain a
function-call segment. -/
def outcomeFC : FetchOutcome → Option (FunctionCall × List Part)
  | FetchOutcome.fetchThrow _ => none
  | FetchOutcome.response false _ => none
  | FetchOutcome.response true d =>
      match candParts d with
      | some (p :: rest) =>
          (List.findSome? Part.functionCall (p :: rest)).map (fun fc => (fc, p :: rest))
      | _ => none

/-- Name of the honoured function call of an outcome (`""` if none). -/
def outcomeName (o : FetchOutcome) : String :=
  ((outcomeFC o).map (fun x => x.1.name)).getD ""

/-- One completed tool-call iteration: the honoured request, the raw
parts list it arrived in and the dispatched result string. -/
structure LoopStep where
  fc : FunctionCall
  rawParts : List Part
  result : String

/-- The transcript block one tool-call iteration appends. -/
def stepTurns (st : LoopStep) : List Turn := toolTurns st.fc st.rawParts st.result

/-- Result of the POST /api/chat route body handling in `index.ts`. -/
inductive RouteResult where
  | badRequest (error : String)
  | serverError (error : String)
  | invoked (message : String) (history : List ChatMessage)
deriving Repr, DecidableEq

/-- Parsed JSON body of a POST /api/chat request: `message` as the raw
JSON value of the field (`none` = absent), `history` as an array of chat
messages (`none` = absent). -/
structure ChatBody where
  message : Option JVal := none
  history : Option (List ChatMessage) := none

/-- Reads the string payload of a `JVal` (only used under the guard that
already established `typeof v === "string"`). -/
def strOf : JVal → String
  | JVal.str s => s
  | _ => ""

/-- The /api/chat branch of the `fetch` handler of `index.ts`: reject
when `!message || typeof message !== "string"`, then check the API key,
then call the orchestrator with `message` and `history || []`. -/
def apiChatRoute (hasApiKey : Bool) (body : ChatBody) : RouteResult :=
  match body.message with
  | none => RouteResult.badRequest "message is required"
  | some v =>
      if jsTruthy v = false || jsIsString v = false then
        RouteResult.badRequest "message is required"
      else if hasApiKey = false then
        RouteResult.serverError "GEMINI_API_KEY not configured"
      else
        RouteResult.invoked (strOf v) (body.history.getD [])

/-- `{ operation, a, b }` as declared by `executeCalculate` in
`tools.ts`. -/
structure CalcArgs where
  operation : String
  a : Rat
  b : Rat
deriving Repr, DecidableEq

/-- Formats the success result string of `executeCalculate`. -/
def fmtCalc (a : Rat) (op : String) (b : Rat) (r : Rat) : String :=
  toString a ++ " " ++ op ++ " " ++ toString b ++ " = " ++ toString r

/-- `executeCalculate` of `tools.ts` (the `switch` on the operation name
written as the equivalent chain of equality tests).  Every arm returns a
string; the function cannot throw. -/
def executeCalculate (args : CalcArgs) : String :=
  if args.operation = "add" then fmtCalc args.a args.operation args.b (args.a + args.b)
  else if args.operation = "subtract" then fmtCalc args.a args.operation args.b (args.a - args.b)
  else if args.operation = "multiply" then fmtCalc args.a args.operation args.b (args.a * args.b)
  else if args.operation = "divide" then
    if args.b = 0 then "오류: 0으로 나눌 수 없습니다"
    else fmtCalc args.a args.operation args.b (args.a / args.b)
  else "알 수 없는 연산: " ++ args.operation

/-- Concrete fixture: executors that all succeed with `"w"`. -/
def envW : ToolEnv :=
  ⟨fun _ => Except.ok "w", fun _ => Except.ok "w", fun _ => Except.ok "w",
   fun _ => Except.ok "w", fun _ => Except.ok "w", fun _ => Except.ok "w",
   fun _ => Except.ok "w", fun _ => Except.ok "w"⟩

/-- Concrete fixture: a weather executor that throws `"boom"`. -/
def envT : ToolEnv :=
  ⟨fun _ => Except.error "boom", fun _ => Except.ok "w", fun _ => Except.ok "w",
   fun _ => Except.ok "w", fun _ => Except.ok "w", fun _ => Except.ok "w",
   fun _ => Except.ok "w", fun _ => Except.ok "w"⟩

/-- Concrete fixture: a parts entry requesting the weather tool. -/
def fcPartW : Part := { functionCall := some (FunctionCall.mk "weather" JVal.null) }

/-- Concrete fixture: a response whose only part is a weather call. -/
def dataFCW : GeminiData := { candidates := some [Candidate.mk (some (Content.mk [fcPartW]))] }

/-- Concrete fixture: every completion call requests a tool call. -/
def svcFCW : Nat → FetchOutcome := fun _ => FetchOutcome.response true dataFCW

/-- Concrete fixture: every completion call fails at transport level. -/
def svcThrowW : Nat → FetchOutcome := fun _ => FetchOutcome.fetchThrow "network failure"

/-- Concrete fixture: a weather call carrying opaque metadata. -/
def fcPartSig : Part :=
  { functionCall := some (FunctionCall.mk "weather" JVal.null),
    thoughtSignature := some "opaque-signature" }

/-- Concrete fixture: a response whose tool-call part carries a
`thoughtSignature`. -/
def dataSig : GeminiData :=
  { candidates := some [Candidate.mk (some (Content.mk [fcPartSig]))] }

/-- Concrete fixture: every call returns the signed tool-call part. -/
def svcSig : Nat → FetchOutcome := fun _ => FetchOutcome.response true dataSig

/-- Concrete fixture: a final text answer `"done"`. -/
def dataTextW : GeminiData :=
  { candidates := some [Candidate.mk (some (Content.mk [{ text := some "done" }]))] }

/-- Concrete fixture: one tool call, then a final answer. -/
def svcMixW : Nat → FetchOutcome := fun i =>
  if i = 0 then FetchOutcome.response true dataFCW else FetchOutcome.response true dataTextW

/-- Concrete fixture: a text part preceding any function call. -/
def pText : Part := { text := some "intro" }

/-- Concrete fixture: a second, later function-call part. -/
def pFC2 : Part := { functionCall := some (FunctionCall.mk "calculate" JVal.obj) }

/-- Concrete fixture: a response holding two function-call parts. -/
def dataMulti : GeminiData :=
  { candidates := some [Candidate.mk (some (Content.mk [pText, fcPartW, pFC2]))] }

/-- Concrete fixture: every call returns the two-call response. -/
def svcMulti : Nat → FetchOutcome := fun _ => FetchOutcome.response true dataMulti

/-- Concrete fixture: an error body with a message. -/
def dataErr : GeminiData := { errorMessage := some "quota exceeded", raw := "body" }

/-- Concrete fixture: every call returns a non-success status. -/
def svcErr : Nat → FetchOutcome := fun _ => FetchOutcome.response false dataErr

/-- Concrete fixture: a success body with an empty candidate list. -/
def dataEmpty : GeminiData := { candidates := some [] }

/-- Concrete fixture: every call returns the empty-candidates body. -/
def svcEmpty : Nat → FetchOutcome := fun _ => FetchOutcome.response true dataEmpty

theorem chatLoop_tools_le (env : ToolEnv) (svc : Nat → FetchOutcome) :
    ∀ (fuel i : Nat) (contents : List Turn) (used : List String) (r : ChatResponse),
      chatLoop env svc fuel i contents used = Except.ok r →
      r.tools_used.length ≤ used.length + fuel := by
  intro fuel
  induction fuel with
  | zero =>
      intro i contents used r h
      simp only [chatLoop] at h
      injection h with h
      subst h
      simp
  | succ n ih =>
      intro i contents used r h
      rw [chatLoop] at h
      split at h
      · exact absurd h (by simp)
      · injection h with h; subst h; simp
      · split at h
        · injection h with h; subst h; simp
        · injection h with h; subst h; simp
        · split at h
          · have := ih _ _ _ _ h
            simp at this ⊢
            omega
          · split at h
            · injection h with h; subst h; simp
            · injection h with h; subst h; simp

theorem chatLoop_step (env : ToolEnv) (svc : Nat → FetchOutcome)
    (fuel i : Nat) (contents : List Turn) (used : List String)
    (d : GeminiData) (p : Part) (rest : List Part) (fc : FunctionCall)
    (hsvc : svc i = FetchOutcome.response true d)
    (hcp : candParts d = some (p :: rest))
    (hfc : List.findSome? Part.functionCall (p :: rest) = some fc) :
    chatLoop env svc (fuel + 1) i contents used =
      chatLoop env svc fuel (i + 1)
        (contents ++ toolTurns fc (p :: rest) (executeTool env fc.name fc.args))
        (used ++ [fc.name]) := by
  simp only [chatLoop, hsvc, hcp, hfc]

theorem outcomeFC_eq (o : FetchOutcome) (fc : FunctionCall) (parts : List Part)
    (h : outcomeFC o = some (fc, parts)) :
    ∃ d p rest, o = FetchOutcome.response true d ∧
      candParts d = some (p :: rest) ∧ parts = p :: rest ∧
      List.findSome? Part.functionCall (p :: rest) = some fc := by
  cases o with
  | fetchThrow m => simp [outcomeFC] at h
  | response ok d =>
      cases ok with
      | false => simp [outcomeFC] at h
      | true =>
          simp only [outcomeFC] at h
          cases hcp : candParts d with
          | none => rw [hcp] at h; simp at h
          | some l =>
              cases l with
              | nil => rw [hcp] at h; simp at h
              | cons p rest =>
                  rw [hcp] at h
                  dsimp only at h
                  cases hfs : List.findSome? Part.functionCall (p :: rest) with
                  | none => rw [hfs] at h; simp at h
                  | some fc' =>
                      rw [hfs] at h
                      simp at h
                      exact ⟨d, p, rest, rfl, hcp, h.2.symm, h.1 ▸ hfs⟩

theorem chatLoop_all_toolCalls (env : ToolEnv) (svc : Nat → FetchOutcome) :
    ∀ (fuel i : Nat) (contents : List Turn) (used : List String),
      (∀ j, j < fuel → (outcomeFC (svc (i + j))).isSome) →
      chatLoop env svc fuel i contents used =
        Except.ok (ChatResponse.mk budgetExhaustedReply
          (used ++ (List.range' i fuel).map (fun j => outcomeName (svc j)))) := by
  intro fuel
  induction fuel with
  | zero => intro i contents used _; simp [chatLoop]
  | succ n ih =>
      intro i contents used hall
      have h0 := hall 0 (by omega)
      rw [Nat.add_zero] at h0
      rw [Option.isSome_iff_exists] at h0
      obtain ⟨⟨fc, parts⟩, hout⟩ := h0
      obtain ⟨d, p, rest, hsvc, hcp, hparts, hfc⟩ := outcomeFC_eq _ _ _ hout
      rw [chatLoop_step env svc n i contents used d p rest fc hsvc hcp hfc]
      rw [ih (i + 1) _ _ (fun j hj => by
        have := hall (j + 1) (by omega)
        rw [show i + (j + 1) = i + 1 + j by omega] at this
        exact this)]
      have hname : outcomeName (svc i) = fc.name := by
        rw [outcomeName, hout]; rfl
      rw [List.range'_succ]
      simp [hname]

theorem chatLoopT_fst (env : ToolEnv) (svc : Nat → FetchOutcome) :
    ∀ (fuel i : Nat) (contents : List Turn) (used : List String),
      (chatLoopT env svc fuel i contents used).1 = chatLoop env svc fuel i contents used := by
  intro fuel
  induction fuel with
  | zero => intro i contents used; rfl
  | succ n ih =>
      intro i contents used
      cases hsvc : svc i with
      | fetchThrow m => simp [chatLoopT, chatLoop, hsvc]
      | response ok d =>
          cases ok with
          | false => simp [chatLoopT, chatLoop, hsvc]
          | true =>
              cases hcp : candParts d with
              | none => simp [chatLoopT, chatLoop, hsvc, hcp]
              | some l =>
                  cases l with
                  | nil => simp [chatLoopT, chatLoop, hsvc, hcp]
                  | cons p rest =>
                      cases hfs : List.findSome? Part.functionCall (p :: rest) with
                      | some fc =>
                          simp only [chatLoopT, chatLoop, hsvc, hcp, hfs]
                          exact ih (i + 1) _ _
                      | none =>
                          cases hft : List.findSome? truthyText (p :: rest) with
                          | some t => simp [chatLoopT, chatLoop, hsvc, hcp, hfs, hft]
                          | none => simp [chatLoopT, chatLoop, hsvc, hcp, hfs, hft]

theorem chatLoopT_decomp (env : ToolEnv) (svc : Nat → FetchOutcome) :
    ∀ (fuel i : Nat) (contents : List Turn) (used : List String),
      ∃ steps : List LoopStep,
        (chatLoopT env svc fuel i contents used).2 = contents ++ steps.flatMap stepTurns ∧
        (∀ st ∈ steps, List.findSome? Part.functionCall st.rawParts = some st.fc ∧
          st.result = executeTool env st.fc.name st.fc.args) ∧
        ∀ r, (chatLoopT env svc fuel i contents used).1 = Except.ok r →
          r.tools_used = used ++ steps.map (fun st => st.fc.name) := by
  intro fuel
  induction fuel with
  | zero =>
      intro i contents used
      exact ⟨[], by simp [chatLoopT], by simp, by simp [chatLoopT]⟩
  | succ n ih =>
      intro i contents used
      cases hsvc : svc i with
      | fetchThrow m =>
          exact ⟨[], by simp [chatLoopT, hsvc], by simp, by simp [chatLoopT, hsvc]⟩
      | response ok d =>
          cases ok with
          | false =>
              exact ⟨[], by simp [chatLoopT, hsvc], by simp, by simp [chatLoopT, hsvc]⟩
          | true =>
              cases hcp : candParts d with
              | none =>
                  exact ⟨[], by simp [chatLoopT, hsvc, hcp], by simp, by simp [chatLoopT, hsvc, hcp]⟩
              | some l =>
                  cases l with
                  | nil =>
                      exact ⟨[], by simp [chatLoopT, hsvc, hcp], by simp, by simp [chatLoopT, hsvc, hcp]⟩
                  | cons p rest =>
                      cases hfs : List.findSome? Part.functionCall (p :: rest) with
                      | some fc =>
                          obtain ⟨steps', h1, hstep, h2⟩ := ih (i + 1)
                            (contents ++ toolTurns fc (p :: rest) (executeTool env fc.name fc.args))
                            (used ++ [fc.name])
                          have heq : chatLoopT env svc (n + 1) i contents used =
                              chatLoopT env svc n (i + 1)
                                (contents ++ toolTurns fc (p :: rest) (executeTool env fc.name fc.args))
                                (used ++ [fc.name]) := by
                            simp only [chatLoopT, hsvc, hcp, hfs]
                          refine ⟨LoopStep.mk fc (p :: rest) (executeTool env fc.name fc.args) :: steps', ?_, ?_, ?_⟩
                          · rw [heq, h1]
                            simp [stepTurns, List.append_assoc]
                          · intro st hst
                            rcases List.mem_cons.mp hst with hst | hst
                            · subst hst; exact ⟨hfs, rfl⟩
                            · exact hstep st hst
                          · intro r h
                            rw [heq] at h
                            have h3 := h2 r h
                            simp [h3, List.append_assoc]
                      | none =>
                          cases hft : List.findSome? truthyText (p :: rest) with
                          | some t =>
                              exact ⟨[], by simp [chatLoopT, hsvc, hcp, hfs, hft], by simp,
                                by simp [chatLoopT, hsvc, hcp, hfs, hft]⟩
                          | none =>
                              exact ⟨[], by simp [chatLoopT, hsvc, hcp, hfs, hft], by simp,
                                by simp [chatLoopT, hsvc, hcp, hfs, hft]⟩

theorem findSome?_first {α β : Type} (f : α → Option β) (pre : List α) (p : α) (post : List α)
    (hpre : ∀ q ∈ pre, f q = none) (b : β) (hp : f p = some b) :
    List.findSome? f (pre ++ p :: post) = some b := by
  induction pre with
  | nil => simp [List.findSome?_cons, hp]
  | cons a l ih =>
      have ha : f a = none := hpre a (by simp)
      simp only [List.cons_append, List.findSome?_cons, ha]
      exact ih (fun q hq => hpre q (by simp [hq]))

theorem chatLoop_no_throw (env : ToolEnv) (svc : Nat → FetchOutcome) :
    ∀ (fuel i : Nat) (contents : List Turn) (used : List String),
      (∀ j, j < fuel → ∀ m, svc (i + j) ≠ FetchOutcome.fetchThrow m) →
      ∃ r, chatLoop env svc fuel i contents used = Except.ok r := by
  intro fuel
  induction fuel with
  | zero => intro i contents used _; exact ⟨_, rfl⟩
  | succ n ih =>
      intro i contents used hnt
      cases hsvc : svc i with
      | fetchThrow m => exact absurd hsvc (by simpa using hnt 0 (by omega) m)
      | response ok d =>
          cases ok with
          | false => exact ⟨ChatResponse.mk (serviceErrorReply d) used, by simp [chatLoop, hsvc]⟩
          | true =>
              cases hcp : candParts d with
              | none => exact ⟨ChatResponse.mk noResponseReply used, by simp [chatLoop, hsvc, hcp]⟩
              | some l =>
                  cases l with
                  | nil => exact ⟨ChatResponse.mk noResponseReply used, by simp [chatLoop, hsvc, hcp]⟩
                  | cons p rest =>
                      cases hfs : List.findSome? Part.functionCall (p :: rest) with
                      | some fc =>
                          obtain ⟨r, hr⟩ := ih (i + 1)
                            (contents ++ toolTurns fc (p :: rest) (executeTool env fc.name fc.args))
                            (used ++ [fc.name])
                            (fun j hj m => by
                              have := hnt (j + 1) (by omega) m
                              rw [show i + (j + 1) = i + 1 + j by omega] at this
                              exact this)
                          exact ⟨r, by rw [chatLoop_step env svc n i contents used d p rest fc hsvc hcp hfs]; exact hr⟩
                      | none =>
                          cases hft : List.findSome? truthyText (p :: rest) with
                          | some t => exact ⟨ChatResponse.mk t used, by simp [chatLoop, hsvc, hcp, hfs, hft]⟩
                          | none => exact ⟨ChatResponse.mk unprocessableReply used, by simp [chatLoop, hsvc, hcp, hfs, hft]⟩

/-- C1: for every session, however the completion service behaves, the
returned `tools_used` list never has more than `MAX_TOOL_CALLS = 5`
entries; and when every one of the first five completion calls requests a
tool call, the loop performs exactly five tool invocations and returns
the fixed budget-exhausted reply together with the five honoured tool
names in order. -/
theorem handleChat_toolsUsed_bounded (env : ToolEnv) (svc : Nat → FetchOutcome)
    (message : String) (history : List ChatMessage) :
    (∀ r, handleChat env svc message history = Except.ok r →
        r.tools_used.length ≤ MAX_TOOL_CALLS) ∧
    ((∀ i, i < MAX_TOOL_CALLS → (outcomeFC (svc i)).isSome) →
      handleChat env svc message history =
        Except.ok (ChatResponse.mk budgetExhaustedReply
          ((List.range MAX_TOOL_CALLS).map (fun i => outcomeName (svc i))))) := by
  constructor
  · intro r h
    have := chatLoop_tools_le env svc MAX_TOOL_CALLS 0 (initialContents message history) [] r h
    simpa using this
  · intro hall
    have := chatLoop_all_toolCalls env svc MAX_TOOL_CALLS 0
      (initialContents message history) [] (fun j hj => by simpa using hall j hj)
    rw [handleChat, this]
    rw [List.range_eq_range']
    simp

/-- C1 witness: five consecutive weather calls exhaust the budget with
five recorded names, within the bound. -/
theorem handleChat_toolsUsed_bounded_witness :
    handleChat envW svcFCW "안녕" [] =
      Except.ok (ChatResponse.mk budgetExhaustedReply
        ((List.range MAX_TOOL_CALLS).map (fun i => outcomeName (svcFCW i)))) ∧
    (ChatResponse.mk budgetExhaustedReply
        ((List.range MAX_TOOL_CALLS).map (fun i => outcomeName (svcFCW i)))).tools_used.length ≤
      MAX_TOOL_CALLS := by
  have h := (handleChat_toolsUsed_bounded envW svcFCW "안녕" []).2 (fun i _ => rfl)
  exact ⟨h, (handleChat_toolsUsed_bounded envW svcFCW "안녕" []).1 _ h⟩

/-- C2 counterexample: when the first outbound call fails at transport
level, `handleChat` does not return a `{ reply, tools_used }` value: the
exception escapes to its caller (modelled as `Except.error`), instead of
being converted into the service-error terminal reply. -/
theorem handleChat_transport_failure_escapes :
    handleChat envT svcThrowW "안녕" [] = Except.error "network failure" := rfl

/-- C2 (amended): whenever every completion call yields an HTTP response
whose body parses as JSON (no transport failure and no `res.json()`
throw), `handleChat` returns a well-formed `{ reply, tools_used }`
value; only a transport-level failure or a non-JSON body propagates as
an exception (caught one level up by the HTTP route handler). -/
theorem handleChat_total_without_transport_failure (env : ToolEnv) (svc : Nat → FetchOutcome)
    (message : String) (history : List ChatMessage)
    (hresp : ∀ i, i < MAX_TOOL_CALLS → ∀ m, svc i ≠ FetchOutcome.fetchThrow m) :
    ∃ r, handleChat env svc message history = Except.ok r :=
  chatLoop_no_throw env svc MAX_TOOL_CALLS 0 (initialContents message history) []
    (fun j hj m => by simpa using hresp j hj m)

/-- C2 witness: a session whose calls all complete returns a value. -/
theorem handleChat_total_without_transport_failure_witness :
    ∃ r, handleChat envT svcFCW "안녕" [] = Except.ok r :=
  handleChat_total_without_transport_failure envT svcFCW "안녕" []
    (fun i _ m h => by simp [svcFCW] at h)

/-- C3: the dispatcher never raises — an unregistered name yields the
descriptive unknown-tool string, a throwing executor is converted into
the descriptive tool-error string — and on a tool-call outcome the loop
records the attempted name in `tools_used` and continues with the next
completion call instead of terminating the session. -/
theorem executeTool_contains_failures (env : ToolEnv) (svc : Nat → FetchOutcome)
    (name : String) (args : JVal) (msg : String)
    (fuel i : Nat) (contents : List Turn) (used : List String)
    (fc : FunctionCall) (parts : List Part) :
    (name ∉ registeredToolNames →
        executeTool env name args = "알 수 없는 도구: " ++ name) ∧
    (execTry env name args = Except.error msg →
        executeTool env name args = "도구 실행 오류 (" ++ name ++ "): " ++ msg) ∧
    (outcomeFC (svc i) = some (fc, parts) →
        chatLoop env svc (fuel + 1) i contents used =
          chatLoop env svc fuel (i + 1)
            (contents ++ toolTurns fc parts (executeTool env fc.name fc.args))
            (used ++ [fc.name])) := by
  refine ⟨?_, ?_, ?_⟩
  · intro hname
    have hdef : execTry env name args = Except.ok ("알 수 없는 도구: " ++ name) := by
      simp only [registeredToolNames, List.mem_cons, List.mem_singleton, not_or] at hname
      obtain ⟨h1, h2, h3, h4, h5, h6, h7, h8, -⟩ := hname
      simp [execTry, h1, h2, h3, h4, h5, h6, h7, h8]
    rw [executeTool, hdef]
  · intro herr
    rw [executeTool, herr]
  · intro hout
    obtain ⟨d, p, rest, hsvc, hcp, hparts, hfc⟩ := outcomeFC_eq _ _ _ hout
    subst hparts
    exact chatLoop_step env svc fuel i contents used d p rest fc hsvc hcp hfc

/-- C3 witness: unknown tool, throwing executor, and a loop step that
records the name and continues. -/
theorem executeTool_contains_failures_witness :
    executeTool envW "no_such_tool" JVal.null = "알 수 없는 도구: no_such_tool" ∧
    executeTool envT "weather" JVal.null = "도구 실행 오류 (weather): boom" ∧
    chatLoop envW svcFCW 1 0 [] [] =
      chatLoop envW svcFCW 0 1
        ([] ++ toolTurns (FunctionCall.mk "weather" JVal.null) [fcPartW]
          (executeTool envW "weather" JVal.null)) ([] ++ ["weather"]) := by
  refine ⟨?_, ?_, ?_⟩
  · exact (executeTool_contains_failures envW svcFCW "no_such_tool" JVal.null "" 0 0 [] []
      (FunctionCall.mk "weather" JVal.null) [fcPartW]).1 (by decide)
  · exact (executeTool_contains_failures envT svcFCW "weather" JVal.null "boom" 0 0 [] []
      (FunctionCall.mk "weather" JVal.null) [fcPartW]).2.1 rfl
  · exact (executeTool_contains_failures envW svcFCW "weather" JVal.null "" 0 0 [] []
      (FunctionCall.mk "weather" JVal.null) [fcPartW]).2.2 rfl

/-- C4: on a tool-call outcome the turn appended as the next model turn
carries exactly the parts list the completion service returned — the
same list value, with every field including any opaque
`thoughtSignature` metadata — never a reconstruction from parsed
fields. -/
theorem raw_parts_roundtrip (env : ToolEnv) (svc : Nat → FetchOutcome)
    (fuel i : Nat) (contents : List Turn) (used : List String)
    (fc : FunctionCall) (parts : List Part)
    (h : outcomeFC (svc i) = some (fc, parts)) :
    chatLoop env svc (fuel + 1) i contents used =
      chatLoop env svc fuel (i + 1)
        (contents ++
          [Turn.mk "model" parts,
           Turn.mk "user"
             [{ functionResponse :=
                  some (FunctionResponse.mk fc.name (executeTool env fc.name fc.args)) }]])
        (used ++ [fc.name]) := by
  obtain ⟨d, p, rest, hsvc, hcp, hparts, hfc⟩ := outcomeFC_eq _ _ _ h
  subst hparts
  exact chatLoop_step env svc fuel i contents used d p rest fc hsvc hcp hfc

/-- C4 witness: a parts list carrying a `thoughtSignature` is appended
verbatim as the next model turn. -/
theorem raw_parts_roundtrip_witness :
    chatLoop envW svcSig 1 0 [] [] =
      chatLoop envW svcSig 0 1
        ([] ++
          [Turn.mk "model" [fcPartSig],
           Turn.mk "user"
             [{ functionResponse :=
                  some (FunctionResponse.mk "weather"
                    (executeTool envW "weather" JVal.null)) }]])
        ([] ++ ["weather"]) :=
  raw_parts_roundtrip envW svcSig 0 0 [] [] (FunctionCall.mk "weather" JVal.null) [fcPartSig] rfl

/-- C5: the final transcript decomposes into the initial contents
followed by a block per tool call, each block being the model turn with
the honoured request followed immediately (before the next completion
call) by exactly one user-role `functionResponse` turn carrying that
request's name; and for every session returning a value (in particular
one ending in a final answer) the number of such blocks equals the
length of `tools_used`. -/
theorem transcript_pairing (env : ToolEnv) (svc : Nat → FetchOutcome)
    (message : String) (history : List ChatMessage) :
    (handleChatT env svc message history).1 = handleChat env svc message history ∧
    ∃ steps : List LoopStep,
      (handleChatT env svc message history).2 =
        initialContents message history ++ steps.flatMap stepTurns ∧
      (∀ st ∈ steps, List.findSome? Part.functionCall st.rawParts = some st.fc ∧
        st.result = executeTool env st.fc.name st.fc.args) ∧
      ∀ r, (handleChatT env svc message history).1 = Except.ok r →
        r.tools_used = steps.map (fun st => st.fc.name) := by
  refine ⟨chatLoopT_fst env svc MAX_TOOL_CALLS 0 _ [], ?_⟩
  obtain ⟨steps, h1, hstep, h2⟩ :=
    chatLoopT_decomp env svc MAX_TOOL_CALLS 0 (initialContents message history) []
  exact ⟨steps, h1, hstep, fun r h => by simpa using h2 r h⟩

/-- C5 witness: a session with one tool call and then a final answer. -/
theorem transcript_pairing_witness :
    (handleChatT envW svcMixW "안녕" []).1 = handleChat envW svcMixW "안녕" [] ∧
    ∃ steps : List LoopStep,
      (handleChatT envW svcMixW "안녕" []).2 =
        initialContents "안녕" [] ++ steps.flatMap stepTurns ∧
      (∀ st ∈ steps, List.findSome? Part.functionCall st.rawParts = some st.fc ∧
        st.result = executeTool envW st.fc.name st.fc.args) ∧
      ∀ r, (handleChatT envW svcMixW "안녕" []).1 = Except.ok r →
        r.tools_used = steps.map (fun st => st.fc.name) :=
  transcript_pairing envW svcMixW "안녕" []

/-- C6: with empty prior history the single new user turn's text is the
fixed system instruction followed by the user's literal message; with
non-empty history the new turn carries the message unmodified and every
prior turn is mapped 1:1 (assistant to the `"model"` role, user to the
`"user"` role) with its text unchanged. -/
theorem initialContents_builder (message : String) (history : List ChatMessage) :
    (initialContents message [] =
        [Turn.mk "user"
          [{ text := some (systemPrompt ++ "\n\n사용자 질문: " ++ message) }]]) ∧
    (history ≠ [] → initialContents message history =
        history.map (fun m => Turn.mk (toGeminiRole m.role) [{ text := some m.text }]) ++
          [Turn.mk "user" [{ text := some message }]]) ∧
    toGeminiRole Role.assistant = "model" ∧ toGeminiRole Role.user = "user" := by
  refine ⟨by simp [initialContents], ?_, rfl, rfl⟩
  intro hne
  simp [initialContents, hne]

/-- C6 witness: a first-turn build and a build over a two-turn history. -/
theorem initialContents_builder_witness :
    initialContents "hola" [] =
      [Turn.mk "user" [{ text := some (systemPrompt ++ "\n\n사용자 질문: " ++ "hola") }]] ∧
    initialContents "hola" [ChatMessage.mk Role.assistant "prev", ChatMessage.mk Role.user "q"] =
      [ChatMessage.mk Role.assistant "prev", ChatMessage.mk Role.user "q"].map
          (fun m => Turn.mk (toGeminiRole m.role) [{ text := some m.text }]) ++
        [Turn.mk "user" [{ text := some "hola" }]] :=
  ⟨(initialContents_builder "hola" []).1,
   (initialContents_builder "hola"
     [ChatMessage.mk Role.assistant "prev", ChatMessage.mk Role.user "q"]).2.1 (by simp)⟩

/-- C7: when the returned segment list contains a function-call part
preceded only by parts with no function call, that first-listed call is
the one honoured — its name is appended to `tools_used` and it alone is
dispatched — regardless of any further function-call parts later in the
list. -/
theorem first_functionCall_wins (env : ToolEnv) (svc : Nat → FetchOutcome)
    (fuel i : Nat) (contents : List Turn) (used : List String)
    (d : GeminiData) (pre post : List Part) (p : Part) (fc : FunctionCall)
    (hsvc : svc i = FetchOutcome.response true d)
    (hcp : candParts d = some (pre ++ p :: post))
    (hpre : ∀ q ∈ pre, q.functionCall = none)
    (hp : p.functionCall = some fc) :
    chatLoop env svc (fuel + 1) i contents used =
      chatLoop env svc fuel (i + 1)
        (contents ++ toolTurns fc (pre ++ p :: post) (executeTool env fc.name fc.args))
        (used ++ [fc.name]) := by
  have hfs : List.findSome? Part.functionCall (pre ++ p :: post) = some fc :=
    findSome?_first Part.functionCall pre p post hpre fc hp
  cases hl : pre ++ p :: post with
  | nil => exact absurd hl (by simp)
  | cons q qs =>
      rw [hl] at hcp hfs
      exact chatLoop_step env svc fuel i contents used d q qs fc hsvc hcp hfs

/-- C7 witness: a response listing a text part, a weather call and a
later calculate call dispatches only the weather call. -/
theorem first_functionCall_wins_witness :
    chatLoop envW svcMulti 1 0 [] [] =
      chatLoop envW svcMulti 0 1
        ([] ++ toolTurns (FunctionCall.mk "weather" JVal.null) ([pText] ++ fcPartW :: [pFC2])
          (executeTool envW "weather" JVal.null)) ([] ++ ["weather"]) :=
  first_functionCall_wins envW svcMulti 0 0 [] [] dataMulti [pText] [pFC2] fcPartW
    (FunctionCall.mk "weather" JVal.null) rfl rfl (by decide) rfl

/-- C8: a non-success response at any iteration is terminal and returns
the service-error reply with the `tools_used` accumulated so far — in
particular a first-call failure returns an empty list — and a response
with no recognisable candidate parts is likewise terminal with the fixed
generic reply and the accumulated `tools_used`. -/
theorem terminal_error_outcomes (env : ToolEnv) (svc : Nat → FetchOutcome)
    (message : String) (history : List ChatMessage)
    (fuel i : Nat) (contents : List Turn) (used : List String) (d : GeminiData) :
    (svc i = FetchOutcome.response false d →
        chatLoop env svc (fuel + 1) i contents used =
          Except.ok (ChatResponse.mk (serviceErrorReply d) used)) ∧
    (svc 0 = FetchOutcome.response false d →
        handleChat env svc message history =
          Except.ok (ChatResponse.mk (serviceErrorReply d) [])) ∧
    (svc i = FetchOutcome.response true d →
      (candParts d = none ∨ candParts d = some []) →
        chatLoop env svc (fuel + 1) i contents used =
          Except.ok (ChatResponse.mk noResponseReply used)) := by
  refine ⟨?_, ?_, ?_⟩
  · intro h
    simp [chatLoop, h]
  · intro h
    rw [handleChat]
    show chatLoop env svc (4 + 1) 0 _ [] = _
    simp [chatLoop, h]
  · intro h hcp
    cases hcp with
    | inl hc => simp [chatLoop, h, hc]
    | inr hc => simp [chatLoop, h, hc]

/-- C8 witness: a mid-session service error preserving one recorded
tool, a first-call service error with an empty list, and an
empty-candidates body. -/
theorem terminal_error_outcomes_witness :
    chatLoop envW svcErr 3 7 [] ["weather"] =
      Except.ok (ChatResponse.mk (serviceErrorReply dataErr) ["weather"]) ∧
    handleChat envW svcErr "안녕" [] =
      Except.ok (ChatResponse.mk (serviceErrorReply dataErr) []) ∧
    chatLoop envW svcEmpty 3 7 [] ["weather"] =
      Except.ok (ChatResponse.mk noResponseReply ["weather"]) := by
  refine ⟨?_, ?_, ?_⟩
  · exact (terminal_error_outcomes envW svcErr "안녕" [] 2 7 [] ["weather"] dataErr).1 rfl
  · exact (terminal_error_outcomes envW svcErr "안녕" [] 2 7 [] ["weather"] dataErr).2.1 rfl
  · exact (terminal_error_outcomes envW svcEmpty "안녕" [] 2 7 [] ["weather"] dataEmpty).2.2 rfl
      (Or.inl rfl)

/-- C9 counterexample: the empty string is a present string-typed
`message`, yet the route rejects it as an input-validation failure,
because the guard `!message` also fires on the falsy empty string. -/
theorem apiChatRoute_rejects_empty_string :
    apiChatRoute true (ChatBody.mk (some (JVal.str "")) none) =
      RouteResult.badRequest "message is required" ∧
    jsIsString (JVal.str "") = true :=
  ⟨rfl, rfl⟩

/-- C9 (amended): the request is rejected as an input-validation failure
exactly when `message` is absent, not a string, or the empty string; for
every body whose `message` is a non-empty string (and the API key is
configured) the orchestrator is invoked with that message and the
supplied history, an absent history becoming the empty list. -/
theorem apiChatRoute_validation (hasApiKey : Bool) (body : ChatBody) (s : String) :
    ((∃ e, apiChatRoute hasApiKey body = RouteResult.badRequest e) ↔
      (body.message = none ∨
       (∀ t, body.message ≠ some (JVal.str t)) ∨
       body.message = some (JVal.str ""))) ∧
    (hasApiKey = true → body.message = some (JVal.str s) → s ≠ "" →
      apiChatRoute hasApiKey body = RouteResult.invoked s (body.history.getD [])) := by
  constructor
  · constructor
    · rintro ⟨e, he⟩
      cases hm : body.message with
      | none => exact Or.inl rfl
      | some v =>
          cases v with
          | str t =>
              by_cases ht : t = ""
              · subst ht; exact Or.inr (Or.inr rfl)
              · exfalso
                rw [apiChatRoute, hm] at he
                simp [jsTruthy, jsIsString, ht] at he
                cases hasApiKey <;> simp_all
          | num q => refine Or.inr (Or.inl ?_); intro t; simp
          | bool b => refine Or.inr (Or.inl ?_); intro t; simp
          | null => refine Or.inr (Or.inl ?_); intro t; simp
          | arr => refine Or.inr (Or.inl ?_); intro t; simp
          | obj => refine Or.inr (Or.inl ?_); intro t; simp
    · intro h
      rcases h with h | h | h
      · exact ⟨"message is required", by rw [apiChatRoute, h]⟩
      · refine ⟨"message is required", ?_⟩
        cases hm : body.message with
        | none => rw [apiChatRoute, hm]
        | some v =>
            cases v with
            | str t => exact absurd hm (h t)
            | num q => rw [apiChatRoute, hm]; simp [jsIsString]
            | bool b => rw [apiChatRoute, hm]; simp [jsIsString]
            | null => rw [apiChatRoute, hm]; simp [jsIsString]
            | arr => rw [apiChatRoute, hm]; simp [jsIsString]
            | obj => rw [apiChatRoute, hm]; simp [jsIsString]
      · exact ⟨"message is required", by rw [apiChatRoute, h]; simp [jsTruthy]⟩
  · intro hk hm hs
    rw [apiChatRoute, hm]
    simp [jsTruthy, jsIsString, hs, hk, strOf]

/-- C9 witness: a non-empty string message with a supplied history
reaches the orchestrator. -/
theorem apiChatRoute_validation_witness :
    apiChatRoute true
        (ChatBody.mk (some (JVal.str "hello"))
          (some [ChatMessage.mk Role.user "hi"])) =
      RouteResult.invoked "hello"
        ((some [ChatMessage.mk Role.user "hi"]).getD []) :=
  (apiChatRoute_validation true
      (ChatBody.mk (some (JVal.str "hello")) (some [ChatMessage.mk Role.user "hi"]))
      "hello").2 rfl rfl (by decide)

/-- C10: dividing by zero returns the fixed division-by-zero error
string (independently of the dividend, the guard firing before any
division), any operation name outside the four arithmetic ones returns
the unknown-operation string, and both paths return normally —
`executeCalculate` is a total function into strings. -/
theorem executeCalculate_guards (a b : Rat) (op : String) :
    executeCalculate (CalcArgs.mk "divide" a 0) = "오류: 0으로 나눌 수 없습니다" ∧
    (op ≠ "add" → op ≠ "subtract" → op ≠ "multiply" → op ≠ "divide" →
      executeCalculate (CalcArgs.mk op a b) = "알 수 없는 연산: " ++ op) := by
  constructor
  · rfl
  · intro h1 h2 h3 h4
    simp [executeCalculate, h1, h2, h3, h4]

/-- C10 witness: divide-by-zero and an unknown operation. -/
theorem executeCalculate_guards_witness :
    executeCalculate (CalcArgs.mk "divide" 7 0) = "오류: 0으로 나눌 수 없습니다" ∧
    executeCalculate (CalcArgs.mk "modulo" 7 3) = "알 수 없는 연산: " ++ "modulo" :=
  ⟨(executeCalculate_guards 7 3 "modulo").1,
   (executeCalculate_guards 7 3 "modulo").2 (by decide) (by decide) (by decide) (by decide)⟩

end Chat
